import Mathlib

/-!
Verification of the Inko runtime core fragment: the FFI class-registration
surface (`src/rt/src/runtime/class.rs`) and the VM core modules declared in
`src/vm/src/lib.rs` (tagged pointers, mailbox, process table, class registry),
the latter modelled from the specification where their bodies are not part of
the visible fragment.
-/

namespace Inko

/-! ## UTF-8 lossy decoding

Embedded from Rust's `String::from_utf8_lossy` / `core::str` UTF-8 validation:
bytes are decoded sequentially; each maximal invalid subsequence is replaced by
one U+FFFD replacement character. The byte-range tables below mirror the UTF-8
acceptance ranges used by `core::str::validations::run_utf8_validation`.
-/

/-- The Unicode replacement character U+FFFD. -/
def replacementChar : Nat := 0xFFFD

/-- A UTF-8 continuation byte: `0x80 ..= 0xBF`. -/
def isCont (b : Nat) : Bool := decide (0x80 ≤ b ∧ b ≤ 0xBF)

/-- Acceptance range for the second byte of a multi-byte sequence, given the
lead byte, as in Rust's UTF-8 validator (excludes overlong encodings and
surrogates). -/
def utf8SecondByteOk (b c1 : Nat) : Bool :=
  if b = 0xE0 then decide (0xA0 ≤ c1 ∧ c1 ≤ 0xBF)
  else if b = 0xED then decide (0x80 ≤ c1 ∧ c1 ≤ 0x9F)
  else if b = 0xF0 then decide (0x90 ≤ c1 ∧ c1 ≤ 0xBF)
  else if b = 0xF4 then decide (0x80 ≤ c1 ∧ c1 ≤ 0x8F)
  else isCont c1

/-- Lossy UTF-8 decoding of a byte sequence to a sequence of Unicode scalar
values, as performed by `String::from_utf8_lossy`: on an invalid sequence, the
validated prefix of the sequence is skipped and one U+FFFD is produced, and
decoding resumes at the offending byte. -/
def utf8Lossy : List Nat → List Nat
  | [] => []
  | b :: rest =>
    if b ≤ 0x7F then
      b :: utf8Lossy rest
    else if 0xC2 ≤ b ∧ b ≤ 0xDF then
      match rest with
      | [] => [replacementChar]
      | c1 :: rest1 =>
        if isCont c1 then
          ((b - 0xC0) * 0x40 + (c1 - 0x80)) :: utf8Lossy rest1
        else
          replacementChar :: utf8Lossy (c1 :: rest1)
    else if 0xE0 ≤ b ∧ b ≤ 0xEF then
      match rest with
      | [] => [replacementChar]
      | c1 :: rest1 =>
        if utf8SecondByteOk b c1 then
          match rest1 with
          | [] => [replacementChar]
          | c2 :: rest2 =>
            if isCont c2 then
              ((b - 0xE0) * 0x1000 + (c1 - 0x80) * 0x40 + (c2 - 0x80)) :: utf8Lossy rest2
            else
              replacementChar :: utf8Lossy (c2 :: rest2)
        else
          replacementChar :: utf8Lossy (c1 :: rest1)
    else if 0xF0 ≤ b ∧ b ≤ 0xF4 then
      match rest with
      | [] => [replacementChar]
      | c1 :: rest1 =>
        if utf8SecondByteOk b c1 then
          match rest1 with
          | [] => [replacementChar]
          | c2 :: rest2 =>
            if isCont c2 then
              match rest2 with
              | [] => [replacementChar]
              | c3 :: rest3 =>
                if isCont c3 then
                  ((b - 0xF0) * 0x40000 + (c1 - 0x80) * 0x1000 +
                    (c2 - 0x80) * 0x40 + (c3 - 0x80)) :: utf8Lossy rest3
                else
                  replacementChar :: utf8Lossy (c3 :: rest3)
            else
              replacementChar :: utf8Lossy (c2 :: rest2)
        else
          replacementChar :: utf8Lossy (c1 :: rest1)
    else
      replacementChar :: utf8Lossy rest

/-- UTF-8 validity of a byte sequence, as in Rust's
`core::str::validations::run_utf8_validation`. -/
def validUtf8 : List Nat → Bool
  | [] => true
  | b :: rest =>
    if b ≤ 0x7F then
      validUtf8 rest
    else if 0xC2 ≤ b ∧ b ≤ 0xDF then
      match rest with
      | [] => false
      | c1 :: rest1 => isCont c1 && validUtf8 rest1
    else if 0xE0 ≤ b ∧ b ≤ 0xEF then
      match rest with
      | [] => false
      | c1 :: rest1 =>
        utf8SecondByteOk b c1 &&
          match rest1 with
          | [] => false
          | c2 :: rest2 => isCont c2 && validUtf8 rest2
    else if 0xF0 ≤ b ∧ b ≤ 0xF4 then
      match rest with
      | [] => false
      | c1 :: rest1 =>
        utf8SecondByteOk b c1 &&
          match rest1 with
          | [] => false
          | c2 :: rest2 =>
            isCont c2 &&
              match rest2 with
              | [] => false
              | c3 :: rest3 => isCont c3 && validUtf8 rest3
    else false

/-- Rust's `Cow<str>`, as produced by `String::from_utf8_lossy`: either a
borrow of the input bytes (which are then valid UTF-8) or a freshly owned
string (a sequence of Unicode scalar values). -/
inductive Cow where
  | borrowed : List Nat → Cow
  | owned : List Nat → Cow
deriving DecidableEq, Repr

/-- `String::from_utf8_lossy`: returns a borrow of the input when it is valid
UTF-8, and an owned string with U+FFFD substitutions otherwise. -/
def from_utf8_lossy (bytes : List Nat) : Cow :=
  if validUtf8 bytes then Cow.borrowed bytes else Cow.owned (utf8Lossy bytes)

/-- `Cow::into_owned`: clones a borrowed string (decoding its valid UTF-8
bytes) into an owned one; an owned string is returned as is. -/
def Cow.into_owned : Cow → List Nat
  | Cow.borrowed b => utf8Lossy b
  | Cow.owned s => s

/-- `CStr::from_ptr(name).to_bytes()`: the bytes of a null-terminated string,
up to but excluding the first null byte. The buffer is only read. -/
def cstr_bytes (buf : List Nat) : List Nat :=
  buf.takeWhile (fun b => b ≠ 0)

/-! ## Classes (`src/rt/src/runtime/class.rs` and the spec's class model) -/

/-- A class is of object kind or of process kind (spec §3, §4.2). -/
inductive ClassKind where
  | object
  | process
deriving DecidableEq, Repr

/-- A class: immutable type metadata (spec §3). The `name` is a Rust `String`,
modelled as its sequence of Unicode scalar values; `fields` is a `u8` and
`methods` a `u16` in the source. -/
structure Class where
  name : List Nat
  fields : Nat
  methods : Nat
  kind : ClassKind
deriving DecidableEq, Repr

/-- Modelled from the spec: `Class::object` (its body lives in `crate::mem`,
outside the visible fragment). Per §4.2 and §6, it creates an immutable class
of object kind carrying exactly the given name, field count and method-table
size. -/
def Class.object (name : List Nat) (fields methods : Nat) : Class :=
  { name := name, fields := fields, methods := methods, kind := ClassKind.object }

/-- Modelled from the spec: `Class::process` (body in `crate::mem`, outside the
visible fragment). As `Class.object` but the created class has process kind. -/
def Class.process (name : List Nat) (fields methods : Nat) : Class :=
  { name := name, fields := fields, methods := methods, kind := ClassKind.process }

/-- `inko_class_object` (src/rt/src/runtime/class.rs): reads the
null-terminated name, converts it with `String::from_utf8_lossy(..).into_owned()`
and calls `Class::object`. -/
def inko_class_object (name : List Nat) (fields methods : Nat) : Class :=
  Class.object (Cow.into_owned (from_utf8_lossy (cstr_bytes name))) fields methods

/-- `inko_class_process` (src/rt/src/runtime/class.rs): as
`inko_class_object` but calls `Class::process`. -/
def inko_class_process (name : List Nat) (fields methods : Nat) : Class :=
  Class.process (Cow.into_owned (from_utf8_lossy (cstr_bytes name))) fields methods

/-- Memory-threaded form of `inko_class_object`: the caller's buffer is passed
as state and every step of the source body (`CStr::from_ptr(..).to_bytes()`,
`String::from_utf8_lossy`, `Cow::into_owned`) only reads it, so the final state
is the untouched buffer. -/
def inko_class_object_mem (mem : List Nat) (fields methods : Nat) : Class × List Nat :=
  let bytes := cstr_bytes mem
  let name := Cow.into_owned (from_utf8_lossy bytes)
  (Class.object name fields methods, mem)

/-- Memory-threaded form of `inko_class_process`; see `inko_class_object_mem`. -/
def inko_class_process_mem (mem : List Nat) (fields methods : Nat) : Class × List Nat :=
  let bytes := cstr_bytes mem
  let name := Cow.into_owned (from_utf8_lossy bytes)
  (Class.process name fields methods, mem)

/-! ## Class registration and the class registry (spec §4.2, §7, §9)

The registry itself is not part of the visible fragment (only the FFI wrappers
above are), so it is modelled from the specification. -/

/-- Registration errors (spec §7). -/
inductive RegError where
  | InvalidClass
deriving DecidableEq, Repr

/-- Modelled from the spec: `register_class(name, field_count,
method_table_size, kind)` (§4.2) creates an immutable class; per §7,
malformed registration input — out-of-range counts (a field count above 255 or
a method-table size above 65535, the `u8`/`u16` ranges of §6) — is rejected
with the recoverable `InvalidClass` error and no class is created. -/
def register_class (name : List Nat) (field_count method_table_size : Nat)
    (kind : ClassKind) : Except RegError Class :=
  if 255 < field_count ∨ 65535 < method_table_size then
    Except.error RegError.InvalidClass
  else
    Except.ok { name := name, fields := field_count, methods := method_table_size, kind := kind }

/-- An operation on the class registry. Modelled from the spec (§4.2, §9): the
registry supports creating a class and explicitly dropping one — no operation
mutates a published class (`class_drop` in the source only releases). -/
inductive RegOp where
  | registerClass (name : List Nat) (fields methods : Nat) (kind : ClassKind)
  | dropClass (id : Nat)
deriving DecidableEq, Repr

/-- Modelled from the spec: the class registry, a table of published classes
keyed by identity, owning them until explicit drop or shutdown (§4.2). -/
structure Registry where
  classes : List (Nat × Class)
  nextId : Nat
deriving DecidableEq, Repr

/-- One registry operation: registration publishes a fresh class under a fresh
identity; dropping removes the class with the given identity. -/
def Registry.step (r : Registry) : RegOp → Registry
  | RegOp.registerClass name f m k =>
      { classes := (r.nextId, { name := name, fields := f, methods := m, kind := k }) :: r.classes,
        nextId := r.nextId + 1 }
  | RegOp.dropClass i =>
      { r with classes := r.classes.filter (fun p => p.1 ≠ i) }

/-- Running a sequence of registry operations. -/
def Registry.run (r : Registry) (ops : List RegOp) : Registry :=
  ops.foldl Registry.step r

/-! ## Tagged pointers (spec §4.1)

The `tagged_pointer` module is declared in `src/vm/src/lib.rs` but its body is
not part of the visible fragment; it is modelled from the specification: a
64-bit machine word whose low-order tag bits distinguish an inline immediate
(boolean, small integer, packed float) from a heap reference. `encode` and
`decode` below are pure functions: they allocate nothing and have no side
effects. -/

/-- A value as seen through a tagged pointer: an immediate (boolean, small
integer, packed float bit pattern) or a heap reference. -/
inductive TValue where
  | boolean : Bool → TValue
  | smallInt : Int → TValue
  | packedFloat : Nat → TValue
  | reference : Nat → TValue
deriving DecidableEq, Repr

/-- The immediates representable inside a 64-bit tagged word: any boolean, a
small integer fitting in the 62 payload bits (two's complement), and a packed
float whose bit pattern fits in the 62 payload bits. Heap references are not
immediates. -/
def representableImmediate : TValue → Prop
  | TValue.boolean _ => True
  | TValue.smallInt i => -(2 ^ 61) ≤ i ∧ i < 2 ^ 61
  | TValue.packedFloat p => p < 2 ^ 62
  | TValue.reference _ => False

/-- `encode(value) -> word`: packs a value into a 64-bit word. The low two
bits are the tag: `0` marks a (word-aligned) heap reference, `1` a small
integer, `2` a packed float, `3` a boolean; the payload sits above the tag. -/
def encode : TValue → Nat
  | TValue.boolean b => (if b then 1 else 0) * 4 + 3
  | TValue.smallInt i => (i % 2 ^ 62).toNat * 4 + 1
  | TValue.packedFloat p => p % 2 ^ 62 * 4 + 2
  | TValue.reference addr => addr

/-- `decode(word) -> Value|Reference`: inspects the tag bits and recovers the
value; a zero tag is a heap reference. -/
def decode (w : Nat) : TValue :=
  if w % 4 = 1 then
    TValue.smallInt (if w / 4 < 2 ^ 61 then (w / 4 : Int) else (w / 4 : Int) - 2 ^ 62)
  else if w % 4 = 2 then
    TValue.packedFloat (w / 4)
  else if w % 4 = 3 then
    TValue.boolean (w / 4 = 1)
  else
    TValue.reference w

/-! ## Mailboxes (spec §4.6)

The `mailbox` module is declared in `src/vm/src/lib.rs`; its body is not part
of the visible fragment and is modelled from the specification: a per-process
FIFO queue of messages; `send` enqueues at the back, `receive` dequeues the
oldest message. A delivery trace interleaves the messages of many senders; each
sender's messages appear in it in their send order. -/

/-- A message as it sits in a mailbox: the sender's PID and the payload. -/
structure Message where
  sender : Nat
  payload : Nat
deriving DecidableEq, Repr

/-- Enqueue a message at the back of a mailbox queue. -/
def mailboxSend (mb : List Message) (msg : Message) : List Message :=
  mb ++ [msg]

/-- `receive()`: dequeue the oldest message, or `none` when the mailbox is
empty (the process then blocks in `WaitingReceive`). -/
def mailboxReceive : List Message → Option (Message × List Message)
  | [] => none
  | m :: rest => some (m, rest)

/-- Deliver a trace of messages into a mailbox, in trace order. -/
def deliverAll (mb : List Message) (msgs : List Message) : List Message :=
  msgs.foldl mailboxSend mb

/-- Drain a mailbox by successive `receive()` calls, listing the messages in
the order the calls return them. -/
def receiveAll : List Message → List Message
  | [] => []
  | m :: rest => m :: receiveAll rest

/-! ## Processes and the process table (spec §4.5, §4.7)

The `process` and `process_table` modules are declared in `src/vm/src/lib.rs`;
their bodies are not part of the visible fragment and are modelled from the
specification: a global PID-to-process registry with `insert`, `remove` and
`lookup`; `send(pid, value)` looks the target up and fails with
`SendToDeadProcess` when the PID is absent. -/

/-- Scheduling states of a process (spec §3, §4.5). -/
inductive ProcState where
  | runnable
  | running
  | waitingReceive
  | waitingTimer
  | suspendedForGC
  | finished
deriving DecidableEq, Repr

/-- A process, reduced to the parts the send path touches: its mailbox and its
scheduling state. -/
structure Process where
  mailbox : List Message
  state : ProcState
deriving DecidableEq, Repr

/-- `lookup` on the process table: the process registered under the PID, if
any. -/
def tableLookup (tbl : List (Nat × Process)) (pid : Nat) : Option Process :=
  match tbl.find? (fun e => e.1 = pid) with
  | none => none
  | some e => some e.2

/-- Send errors (spec §7). -/
inductive SendError where
  | SendToDeadProcess
deriving DecidableEq, Repr

/-- Modelled from the spec: `send(pid, value)` (§4.6) looks up the process
table and enqueues the message in the target's mailbox; when the PID is absent
it reports the recoverable `SendToDeadProcess` error, the message is dropped
and the table is left as it was. Returns the error report and the table after
the call. -/
def sendStep (tbl : List (Nat × Process)) (sender target payload : Nat) :
    Option SendError × List (Nat × Process) :=
  match tableLookup tbl target with
  | none => (some SendError.SendToDeadProcess, tbl)
  | some p =>
      (none,
        tbl.map (fun e =>
          if e.1 = target then
            (e.1, { p with mailbox := mailboxSend p.mailbox { sender := sender, payload := payload } })
          else e))

/-! ## Helper lemmas -/

/-- The two branches of `from_utf8_lossy` followed by `into_owned` both yield
the lossily decoded scalar-value sequence (on valid input the lossy decoding
is the exact decoding of the borrowed bytes). -/
theorem into_owned_from_utf8_lossy (bytes : List Nat) :
    (from_utf8_lossy bytes).into_owned = utf8Lossy bytes := by
  unfold from_utf8_lossy
  split <;> rfl

/-- Delivering a trace into a mailbox queue appends it. -/
theorem deliverAll_eq_append (mb msgs : List Message) :
    deliverAll mb msgs = mb ++ msgs := by
  induction msgs generalizing mb with
  | nil => simp [deliverAll]
  | cons m rest ih =>
    simp only [deliverAll, List.foldl_cons] at *
    rw [ih (mailboxSend mb m), mailboxSend]
    simp

/-- Draining a mailbox by successive receives lists its queue front to back. -/
theorem receiveAll_eq (mb : List Message) : receiveAll mb = mb := by
  induction mb with
  | nil => rfl
  | cons m rest ih => simp [receiveAll, ih]

/-- `receiveAll` agrees with iterated `mailboxReceive`: the first receive
returns the head of the drained list. -/
theorem receiveAll_head (m : Message) (rest : List Message) :
    mailboxReceive (m :: rest) = some (m, receiveAll rest) := by
  simp [mailboxReceive, receiveAll_eq]

set_option maxHeartbeats 2000000 in
/-- Lossy decoding of an invalid byte sequence always produces at least one
U+FFFD replacement character. -/
theorem replacement_of_invalid (bytes : List Nat) :
    validUtf8 bytes = false → replacementChar ∈ utf8Lossy bytes := by
  induction bytes using utf8Lossy.induct
  all_goals intro h
  all_goals rw [validUtf8.eq_def] at h
  all_goals rw [utf8Lossy.eq_def]
  all_goals dsimp only at h ⊢
  all_goals try split_ifs at h ⊢
  all_goals simp_all only [Bool.true_and, Bool.false_and,
    List.mem_cons, List.mem_singleton, eq_self_iff_true, true_or, or_true,
    or_false, false_or, not_true, not_false_iff, reduceCtorEq,
    Bool.not_eq_true]
  all_goals tauto

/-! ## Claims -/

/-- C1: for every null-terminated input name, `inko_class_object` converts the
name bytes with lossy UTF-8 substitution and never rejects the registration: a
class is always created whose name is exactly the lossily converted byte
string, and whenever the name bytes are invalid UTF-8 the stored name contains
the U+FFFD replacement character in place of the invalid sequences. -/
theorem inko_class_object_lossy (buf : List Nat) (fields methods : Nat)
    (h : 0 ∈ buf) :
    inko_class_object buf fields methods =
      Class.object (utf8Lossy (cstr_bytes buf)) fields methods ∧
    (validUtf8 (cstr_bytes buf) = false →
      replacementChar ∈ (inko_class_object buf fields methods).name) := by
  have hname : inko_class_object buf fields methods =
      Class.object (utf8Lossy (cstr_bytes buf)) fields methods := by
    unfold inko_class_object
    rw [into_owned_from_utf8_lossy]
  refine ⟨hname, fun hinv => ?_⟩
  rw [hname]
  exact replacement_of_invalid _ hinv

/-- C1 witness: an invalid byte (0xFF) before the terminator is substituted
with U+FFFD and the class is still created. -/
theorem inko_class_object_lossy_witness :
    (0 ∈ [255, 0]) ∧
    (inko_class_object [255, 0] 1 2 =
        Class.object (utf8Lossy (cstr_bytes [255, 0])) 1 2 ∧
      (validUtf8 (cstr_bytes [255, 0]) = false →
        replacementChar ∈ (inko_class_object [255, 0] 1 2).name)) :=
  ⟨by decide, inko_class_object_lossy [255, 0] 1 2 (by decide)⟩

/-- C4: for every representable immediate value — boolean, small integer or
packed float — the tagged-pointer word operations round-trip:
`decode (encode v) = v`. Both operations are pure functions on machine words:
no allocation, no side effects. -/
theorem tagged_pointer_roundtrip (v : TValue) (h : representableImmediate v) :
    decode (encode v) = v := by
  cases v with
  | boolean b => cases b <;> rfl
  | smallInt i =>
    obtain ⟨h1, h2⟩ := h
    simp only [encode, decode]
    split_ifs <;> first
      | (exfalso; omega)
      | (simp only [TValue.smallInt.injEq]; omega)
  | packedFloat p =>
    simp only [representableImmediate] at h
    simp only [encode, decode]
    split_ifs <;> first
      | (exfalso; omega)
      | (simp only [TValue.packedFloat.injEq]; omega)
  | reference addr =>
    exact absurd h (by simp [representableImmediate])

/-- C4 witness: a negative small integer survives the round trip. -/
theorem tagged_pointer_roundtrip_witness :
    representableImmediate (TValue.smallInt (-3)) ∧
      decode (encode (TValue.smallInt (-3))) = TValue.smallInt (-3) :=
  ⟨⟨by norm_num, by norm_num⟩,
    tagged_pointer_roundtrip (TValue.smallInt (-3)) ⟨by norm_num, by norm_num⟩⟩

/-- C2: for every valid null-terminated name, every field count in 0–255 and
every method-table size in 0–65535, `inko_class_object` returns a newly
created class of object kind, recording exactly the given counts; it never
fails. -/
theorem inko_class_object_creates (buf : List Nat) (fields methods : Nat)
    (h0 : 0 ∈ buf) (hf : fields ≤ 255) (hm : methods ≤ 65535) :
    (inko_class_object buf fields methods).kind = ClassKind.object ∧
    (inko_class_object buf fields methods).fields = fields ∧
    (inko_class_object buf fields methods).methods = methods :=
  ⟨rfl, rfl, rfl⟩

/-- C2 witness: concrete in-range registration. -/
theorem inko_class_object_creates_witness :
    (0 ∈ [72, 105, 0]) ∧ (255 : Nat) ≤ 255 ∧ (65535 : Nat) ≤ 65535 ∧
    ((inko_class_object [72, 105, 0] 255 65535).kind = ClassKind.object ∧
      (inko_class_object [72, 105, 0] 255 65535).fields = 255 ∧
      (inko_class_object [72, 105, 0] 255 65535).methods = 65535) :=
  ⟨by decide, by decide, by decide,
    inko_class_object_creates [72, 105, 0] 255 65535 (by decide) (by decide) (by decide)⟩

/-- C7: for every valid null-terminated name and in-range counts,
`inko_class_process` creates exactly the class `inko_class_object` would,
except that its kind is process. -/
theorem inko_class_process_creates (buf : List Nat) (fields methods : Nat)
    (h0 : 0 ∈ buf) (hf : fields ≤ 255) (hm : methods ≤ 65535) :
    inko_class_process buf fields methods =
      { inko_class_object buf fields methods with kind := ClassKind.process } :=
  rfl

/-- C7 witness: concrete process-class registration. -/
theorem inko_class_process_creates_witness :
    (0 ∈ [80, 0]) ∧ (3 : Nat) ≤ 255 ∧ (7 : Nat) ≤ 65535 ∧
    inko_class_process [80, 0] 3 7 =
      { inko_class_object [80, 0] 3 7 with kind := ClassKind.process } :=
  ⟨by decide, by decide, by decide,
    inko_class_process_creates [80, 0] 3 7 (by decide) (by decide) (by decide)⟩

/-- C9: `inko_class_object` is deterministic — two calls on identical name
bytes and equal counts yield classes with identical name, field count and
method-table size. -/
theorem inko_class_object_deterministic (b1 b2 : List Nat) (f1 f2 m1 m2 : Nat)
    (hb : b1 = b2) (hf : f1 = f2) (hm : m1 = m2) :
    (inko_class_object b1 f1 m1).name = (inko_class_object b2 f2 m2).name ∧
    (inko_class_object b1 f1 m1).fields = (inko_class_object b2 f2 m2).fields ∧
    (inko_class_object b1 f1 m1).methods = (inko_class_object b2 f2 m2).methods := by
  subst hb; subst hf; subst hm
  exact ⟨rfl, rfl, rfl⟩

/-- C9 witness: two calls on equal concrete inputs agree. -/
theorem inko_class_object_deterministic_witness :
    ([200, 0] : List Nat) = [200, 0] ∧ (1 : Nat) = 1 ∧ (2 : Nat) = 2 ∧
    ((inko_class_object [200, 0] 1 2).name = (inko_class_object [200, 0] 1 2).name ∧
      (inko_class_object [200, 0] 1 2).fields = (inko_class_object [200, 0] 1 2).fields ∧
      (inko_class_object [200, 0] 1 2).methods = (inko_class_object [200, 0] 1 2).methods) :=
  ⟨rfl, rfl, rfl, inko_class_object_deterministic [200, 0] [200, 0] 1 1 2 2 rfl rfl rfl⟩

/-- C10: both FFI registration functions only read the caller's buffer — the
memory-threaded embeddings return it untouched — and the name retained by the
created class is a fresh owned sequence of scalar values computed from the
byte values alone (`from_utf8_lossy` then `into_owned`), not a reference into
the buffer. -/
theorem inko_class_mem_frame (mem : List Nat) (fields methods : Nat) (h : 0 ∈ mem) :
    (inko_class_object_mem mem fields methods).2 = mem ∧
    (inko_class_process_mem mem fields methods).2 = mem ∧
    (inko_class_object_mem mem fields methods).1.name = utf8Lossy (cstr_bytes mem) ∧
    (inko_class_process_mem mem fields methods).1.name = utf8Lossy (cstr_bytes mem) := by
  refine ⟨rfl, rfl, ?_, ?_⟩ <;>
    simp [inko_class_object_mem, inko_class_process_mem, Class.object, Class.process,
      into_owned_from_utf8_lossy]

/-- C10 witness: concrete call leaves the buffer unchanged and stores a fresh
name. -/
theorem inko_class_mem_frame_witness :
    (0 ∈ [65, 0, 9]) ∧
    ((inko_class_object_mem [65, 0, 9] 1 1).2 = [65, 0, 9] ∧
      (inko_class_process_mem [65, 0, 9] 1 1).2 = [65, 0, 9] ∧
      (inko_class_object_mem [65, 0, 9] 1 1).1.name = utf8Lossy (cstr_bytes [65, 0, 9]) ∧
      (inko_class_process_mem [65, 0, 9] 1 1).1.name = utf8Lossy (cstr_bytes [65, 0, 9])) :=
  ⟨by decide, inko_class_mem_frame [65, 0, 9] 1 1 (by decide)⟩

/-- C3: malformed registration input — an out-of-range field count or
method-table size — is rejected with the recoverable `InvalidClass` error and
no class is created. -/
theorem register_class_invalid (name : List Nat) (f m : Nat) (k : ClassKind)
    (h : 255 < f ∨ 65535 < m) :
    register_class name f m k = Except.error RegError.InvalidClass ∧
    ∀ c : Class, register_class name f m k ≠ Except.ok c := by
  unfold register_class
  rw [if_pos h]
  exact ⟨rfl, fun c hc => Except.noConfusion hc⟩

/-- C3 witness: a field count of 256 is rejected. -/
theorem register_class_invalid_witness :
    (255 < 256 ∨ 65535 < (0 : Nat)) ∧
    (register_class [65, 0] 256 0 ClassKind.object = Except.error RegError.InvalidClass ∧
      ∀ c : Class, register_class [65, 0] 256 0 ClassKind.object ≠ Except.ok c) :=
  ⟨Or.inl (by decide), register_class_invalid [65, 0] 256 0 ClassKind.object (Or.inl (by decide))⟩

/-- C8: a class, once published in the registry, is immutable for the life of
the runtime — its entry (identity together with name, field count,
method-table size and kind) survives every sequence of registry operations
that does not explicitly drop that class. -/
theorem registry_class_immutable (r : Registry) (ops : List RegOp) (i : Nat) (c : Class)
    (hmem : (i, c) ∈ r.classes) (hnd : ∀ op ∈ ops, op ≠ RegOp.dropClass i) :
    (i, c) ∈ (Registry.run r ops).classes := by
  induction ops generalizing r with
  | nil => exact hmem
  | cons op rest ih =>
    have hstep : (i, c) ∈ (Registry.step r op).classes := by
      cases op with
      | registerClass name f m k =>
        exact List.mem_cons_of_mem _ hmem
      | dropClass j =>
        have hji : j ≠ i := by
          intro hj
          exact hnd (RegOp.dropClass j) (List.mem_cons_self _ _) (by rw [hj])
        simp only [Registry.step, List.mem_filter]
        exact ⟨hmem, by simpa using hji.symm⟩
    exact ih (Registry.step r op) hstep (fun o ho => hnd o (List.mem_cons_of_mem _ ho))

/-- C8 witness: a published class survives an unrelated registration and an
unrelated drop. -/
theorem registry_class_immutable_witness :
    ((0, Class.object [67] 1 2) ∈ ({ classes := [(0, Class.object [67] 1 2)], nextId := 1 } : Registry).classes) ∧
    (∀ op ∈ [RegOp.registerClass [68] 0 0 ClassKind.process, RegOp.dropClass 9], op ≠ RegOp.dropClass 0) ∧
    (0, Class.object [67] 1 2) ∈
      (Registry.run { classes := [(0, Class.object [67] 1 2)], nextId := 1 }
        [RegOp.registerClass [68] 0 0 ClassKind.process, RegOp.dropClass 9]).classes :=
  ⟨by decide, by decide,
    registry_class_immutable { classes := [(0, Class.object [67] 1 2)], nextId := 1 }
      [RegOp.registerClass [68] 0 0 ClassKind.process, RegOp.dropClass 9] 0
      (Class.object [67] 1 2) (by decide) (by decide)⟩

/-- C5: per-sender FIFO — for any interleaved delivery trace in which sender
A's messages are, in order, `m1, m2, m3`, the receiver's successive
`receive()` calls return A's messages in exactly that order (no constraint is
placed on the positions of other senders' messages). -/
theorem mailbox_per_sender_fifo (msgs : List Message) (A : Nat) (m1 m2 m3 : Message)
    (hsend : msgs.filter (fun msg => msg.sender = A) = [m1, m2, m3]) :
    (receiveAll (deliverAll [] msgs)).filter (fun msg => msg.sender = A) = [m1, m2, m3] := by
  rw [deliverAll_eq_append, List.nil_append, receiveAll_eq]
  exact hsend

/-- C5 witness: sender 1's messages 10, 20, 30 interleaved with sender 2's
traffic are received in send order. -/
theorem mailbox_per_sender_fifo_witness :
    ([⟨1, 10⟩, ⟨2, 99⟩, ⟨1, 20⟩, ⟨2, 98⟩, ⟨1, 30⟩] : List Message).filter
        (fun msg => msg.sender = 1) = [⟨1, 10⟩, ⟨1, 20⟩, ⟨1, 30⟩] ∧
    (receiveAll (deliverAll [] [⟨1, 10⟩, ⟨2, 99⟩, ⟨1, 20⟩, ⟨2, 98⟩, ⟨1, 30⟩])).filter
        (fun msg => msg.sender = 1) = [⟨1, 10⟩, ⟨1, 20⟩, ⟨1, 30⟩] :=
  ⟨by decide,
    mailbox_per_sender_fifo [⟨1, 10⟩, ⟨2, 99⟩, ⟨1, 20⟩, ⟨2, 98⟩, ⟨1, 30⟩] 1
      ⟨1, 10⟩ ⟨1, 20⟩ ⟨1, 30⟩ (by decide)⟩

/-- C6: sending to a PID absent from the process table reports the recoverable
`SendToDeadProcess` error, the message is dropped, and the table — including
the sender's own entry and every mailbox — is left exactly as it was, so the
sender does not crash. -/
theorem send_to_dead_process (tbl : List (Nat × Process)) (sender target payload : Nat)
    (h : tableLookup tbl target = none) :
    sendStep tbl sender target payload = (some SendError.SendToDeadProcess, tbl) ∧
    ∀ pid, tableLookup (sendStep tbl sender target payload).2 pid = tableLookup tbl pid := by
  unfold sendStep
  rw [h]
  exact ⟨rfl, fun pid => rfl⟩

/-- C6 witness: a send from live process 1 to absent PID 2 errors and leaves
the table unchanged. -/
theorem send_to_dead_process_witness :
    tableLookup [(1, ⟨[], ProcState.running⟩)] 2 = none ∧
    (sendStep [(1, ⟨[], ProcState.running⟩)] 1 2 42 =
        (some SendError.SendToDeadProcess, [(1, ⟨[], ProcState.running⟩)]) ∧
      ∀ pid, tableLookup (sendStep [(1, ⟨[], ProcState.running⟩)] 1 2 42).2 pid =
        tableLookup [(1, ⟨[], ProcState.running⟩)] pid) :=
  ⟨by decide, send_to_dead_process [(1, ⟨[], ProcState.running⟩)] 1 2 42 (by decide)⟩

end Inko
